import Mathlib

/-!
Verification of the handwriting-similarity core in
`src/app/similarity/handwriting_similarity.py`.

Numbers that the source manipulates as Python/NumPy floats are embedded as
exact rationals (`ℚ`); integer counts that flow into arithmetic are embedded
as `ℚ` as well (the source mixes ints and floats freely).  Standard
deviations (`np.std`) are square roots of the population variance; to keep
every definition executable we carry the variance (a rational) and state the
source's comparison `|v - mean| > 2.0 * std` in the equivalent squared form
`(v - mean)^2 > 4 * var` (both sides of the original comparison are
nonnegative, see `exceedsThreshold_iff_real`).
-/

namespace HandwritingSimilarity

/-- One recognized symbol, as delivered by the recognition service:
`symbol.get("text", "")`, `symbol.get("confidence", 0)`, and the truthiness
of `symbol.get("property", {}).get("detectedBreak", {}).get("type")`. -/
structure Symbol where
  text : String
  confidence : ℚ
  hasBreak : Bool
deriving DecidableEq

/-- One recognized word: `word.get("symbols", [])`. -/
structure Word where
  symbols : List Symbol
deriving DecidableEq

/-- One raw recognized paragraph: `paragraph.get("confidence", 0)` and
`paragraph.get("words", [])`. -/
structure RawParagraph where
  confidence : ℚ
  words : List Word
deriving DecidableEq

/-- The per-paragraph feature record built by `process_image`
(lines 72-104 of the source). -/
structure ParagraphFeature where
  confidence : ℚ
  word_count : ℕ
  symbol_density : ℚ
  line_breaks : ℚ
  average_symbol_confidence : ℚ
deriving DecidableEq

/-- Python `str.isalnum()`: nonempty and every character alphanumeric. -/
def pyIsAlnum (s : String) : Bool :=
  !s.isEmpty && s.data.all Char.isAlphanum

/-- Model of `sum(1 for word in words for _ in word.get("symbols", []))`. -/
def totalSymbols (words : List Word) : ℕ :=
  (words.map (fun w => w.symbols.length)).sum

/-- Model of `sum(1 for word in words for symbol in word.get("symbols", []) if
not symbol.get("text", "").isalnum())`. -/
def nonAlnumSymbols (words : List Word) : ℕ :=
  (words.map (fun w => (w.symbols.filter (fun s => !pyIsAlnum s.text)).length)).sum

/-- Model of `sum(1 for word in words for symbol in word.get("symbols", []) if
symbol...detectedBreak...type)`. -/
def lineBreakCount (words : List Word) : ℕ :=
  (words.map (fun w => (w.symbols.filter (fun s => s.hasBreak)).length)).sum

/-- Model of `sum(symbol.get("confidence", 0) for word in words for symbol in
word.get("symbols", []))`. -/
def symbolConfidenceSum (words : List Word) : ℚ :=
  (words.map (fun w => (w.symbols.map (fun s => s.confidence)).sum)).sum

/-- The feature dict built for one paragraph (source lines 72-104).
`symbol_density` divides the non-alphanumeric symbol count by `len(words)`.
`average_symbol_confidence` divides by the total symbol count with no guard:
when the paragraph has zero symbols the source raises `ZeroDivisionError`,
modelled here as `none`. -/
def mkParagraphFeature (p : RawParagraph) : Option ParagraphFeature :=
  if totalSymbols p.words = 0 then
    none
  else
    some
      { confidence := p.confidence
        word_count := p.words.length
        symbol_density := (nonAlnumSymbols p.words : ℚ) / (p.words.length : ℚ)
        line_breaks := (lineBreakCount p.words : ℚ)
        average_symbol_confidence :=
          symbolConfidenceSum p.words / (totalSymbols p.words : ℚ) }

/-- The paragraph loop of `process_image`: paragraphs with no words are
skipped (`if words:`); a `ZeroDivisionError` while building any feature dict
propagates to the surrounding `except`, which returns `[]` for the whole
page. -/
def process_image (paragraphs : List RawParagraph) : List ParagraphFeature :=
  match (paragraphs.filter (fun p => !p.words.isEmpty)).mapM mkParagraphFeature with
  | some feats => feats
  | none => []

/-- Model of `np.mean` on a list of rationals (the source only applies it to
nonempty lists). -/
def listMean (l : List ℚ) : ℚ := l.sum / (l.length : ℚ)

/-- Population variance, i.e. the square of `np.std`. -/
def listVar (l : List ℚ) : ℚ :=
  listMean (l.map (fun x => (x - listMean l) ^ 2))

/-- Model of `np.clip(x, 0, 1)`. -/
def clip01 (q : ℚ) : ℚ := min 1 (max 0 q)

/-- One per-dimension similarity of `compare_handwriting_features`
(source lines 170-188): `1 - abs(np.mean(field over flat1) - np.mean(field
over flat2))`. -/
def dimSim (flat1 flat2 : List ParagraphFeature) (field : ParagraphFeature → ℚ) : ℚ :=
  1 - |listMean (flat1.map field) - listMean (flat2.map field)|

/-- The `feature_scores` dict (source lines 190-195), in insertion order. -/
def featureScores (flat1 flat2 : List ParagraphFeature) : List (String × ℚ) :=
  [("confidence_similarity", clip01 (dimSim flat1 flat2 (fun f => f.confidence))),
   ("symbol_density_similarity", clip01 (dimSim flat1 flat2 (fun f => f.symbol_density))),
   ("line_break_similarity", clip01 (dimSim flat1 flat2 (fun f => f.line_breaks))),
   ("average_confidence_similarity",
     clip01 (dimSim flat1 flat2 (fun f => f.average_symbol_confidence)))]

/-- The weighted sum of the four (unclamped) per-dimension similarities
(source lines 197-209), weights 0.3 / 0.3 / 0.2 / 0.2. -/
def weightedSim (flat1 flat2 : List ParagraphFeature) : ℚ :=
  0.3 * dimSim flat1 flat2 (fun f => f.confidence)
    + 0.3 * dimSim flat1 flat2 (fun f => f.symbol_density)
    + 0.2 * dimSim flat1 flat2 (fun f => f.line_breaks)
    + 0.2 * dimSim flat1 flat2 (fun f => f.average_symbol_confidence)

/-- Model of `compare_handwriting_features` (source lines 158-211).  The first guard
is `not features1 or not features2 or not features1[0] or not features2[0]`;
the second, after flattening, is `not flat_features1 or not flat_features2`. -/
def compare_handwriting_features (features1 features2 : List (List ParagraphFeature)) :
    ℚ × List (String × ℚ) :=
  if features1 = [] ∨ features2 = [] ∨ features1.headI = [] ∨ features2.headI = [] then
    (0, [])
  else if features1.flatten = [] ∨ features2.flatten = [] then
    (0, [])
  else
    (clip01 (weightedSim features1.flatten features2.flatten),
     featureScores features1.flatten features2.flatten)

/-- The composite score as claim C1 words it: each per-dimension similarity
clamped to [0,1] BEFORE entering the weighted sum, the sum clamped again.
Stated from the spec's words, for comparison with the source computation. -/
def claimedComposite (features1 features2 : List (List ParagraphFeature)) : ℚ :=
  clip01 (0.3 * clip01 (dimSim features1.flatten features2.flatten (fun f => f.confidence))
    + 0.3 * clip01 (dimSim features1.flatten features2.flatten (fun f => f.symbol_density))
    + 0.2 * clip01 (dimSim features1.flatten features2.flatten (fun f => f.line_breaks))
    + 0.2 * clip01 (dimSim features1.flatten features2.flatten (fun f => f.average_symbol_confidence)))

/-- Field `symbol_density` as claim C2 words it: the fraction of the paragraph's
symbols that are non-alphanumeric, i.e. non-alphanumeric symbols divided by
the TOTAL SYMBOL COUNT.  Stated from the spec's words, for comparison with
the source computation (which divides by the word count). -/
def claimedSymbolDensity (words : List Word) : ℚ :=
  (nonAlnumSymbols words : ℚ) / (totalSymbols words : ℚ)

/-- The source's anomaly test `abs(value - mean) > threshold * std` with
`threshold = 2.0` and `std = sqrt var`, stated in the equivalent squared
form to stay inside `ℚ` (both sides of the original comparison are
nonnegative; see `exceedsThreshold_iff_real`). -/
def exceedsThreshold (v mean var : ℚ) : Bool :=
  decide ((v - mean) ^ 2 > 4 * var)

/-- One flagged dimension inside an anomaly record.  The source stores
`value`, `mean` and `deviation = abs(value - mean) / std`; we store `value`,
`mean` and the variance `var = std^2` so the record stays rational, and
recover the deviation as the real number `|value - mean| / sqrt var` in the
theorems. -/
structure DimAnomaly where
  value : ℚ
  mean : ℚ
  var : ℚ
deriving DecidableEq

/-- One anomaly record (source lines 260-293): the three optional flagged
dimensions plus `paragraph_index` and `page_number`. -/
structure AnomalyRecord where
  confidence : Option DimAnomaly
  symbol_density : Option DimAnomaly
  line_breaks : Option DimAnomaly
  paragraph_index : ℕ
  page_number : ℕ
deriving DecidableEq

/-- The per-dimension `if ... > threshold * std` block of
`detect_page_anomalies`. -/
def mkDimAnomaly (v mean var : ℚ) : Option DimAnomaly :=
  if exceedsThreshold v mean var then some ⟨v, mean, var⟩ else none

/-- Model of `detect_page_anomalies` (source lines 247-295): per-page means and
population variances of the three dimensions, then one record per paragraph
that has at least one flagged dimension, in paragraph order. -/
def detect_page_anomalies (features : List ParagraphFeature) (page_num : ℕ) :
    List AnomalyRecord :=
  let cMean := listMean (features.map (fun f => f.confidence))
  let cVar := listVar (features.map (fun f => f.confidence))
  let sMean := listMean (features.map (fun f => f.symbol_density))
  let sVar := listVar (features.map (fun f => f.symbol_density))
  let lMean := listMean (features.map (fun f => f.line_breaks))
  let lVar := listVar (features.map (fun f => f.line_breaks))
  features.enum.filterMap (fun p =>
    let aC := mkDimAnomaly p.2.confidence cMean cVar
    let aS := mkDimAnomaly p.2.symbol_density sMean sVar
    let aL := mkDimAnomaly p.2.line_breaks lMean lVar
    if aC = none ∧ aS = none ∧ aL = none then none
    else some { confidence := aC, symbol_density := aS, line_breaks := aL,
                paragraph_index := p.1, page_number := page_num + 1 })

/-- The `page_characteristics` dict built by `detect_internal_anomalies`
(source lines 229-234): page number (1-based) and the page's mean
confidence, symbol density and line breaks. -/
structure PageCharacteristics where
  page_number : ℕ
  confidence : ℚ
  symbol_density : ℚ
  line_breaks : ℚ
deriving DecidableEq

/-- One entry of a variation record's `changes` list. -/
structure ChangeEntry where
  type : String
  difference : ℚ
  description : String
deriving DecidableEq

/-- One variation record (source lines 306-310). -/
structure VariationRecord where
  from_page : ℕ
  to_page : ℕ
  changes : List ChangeEntry
deriving DecidableEq

/-- Model of `change_type.replace('_', ' ')`: the source replaces underscores
by spaces. -/
def underscoreToSpace (s : String) : String :=
  ⟨s.data.map (fun c => if c = '_' then ' ' else c)⟩

/-- Python `str.title()` on ASCII text: a letter is uppercased when the
previous character is not a letter and lowercased otherwise. -/
def titleCaseGo : Bool → List Char → List Char
  | _, [] => []
  | prevAlpha, c :: cs =>
    if c.isAlpha then
      (if prevAlpha then c.toLower else c.toUpper) :: titleCaseGo true cs
    else
      c :: titleCaseGo false cs

/-- Python `str.title()` (restricted to the ASCII alphabet, which covers all
dimension names the source formats). -/
def titleCase (s : String) : String := ⟨titleCaseGo false s.data⟩

/-- Round a rational to the nearest integer, ties to even — the rounding
Python's fixed-point float formatting applies. -/
def roundHalfEven (q : ℚ) : ℤ :=
  let f := ⌊q⌋
  if q - f < 1 / 2 then f
  else if q - f > 1 / 2 then f + 1
  else if f % 2 = 0 then f else f + 1

/-- Python's `:.1f` fixed-point formatting with one digit after the decimal
point, modelled on exact rationals (the source formats binary doubles; on
the rational values this development evaluates it on, the two agree). -/
def formatFixed1 (q : ℚ) : String :=
  let n := roundHalfEven (q * 10)
  (if n < 0 then "-" else "")
    ++ toString (n.natAbs / 10) ++ "." ++ toString (n.natAbs % 10)

/-- The f-string of source line 326:
`f"{change_type.replace('_', ' ').title()} changed by {(value * 100):.1f}%"`. -/
def describeChange (ty : String) (value : ℚ) : String :=
  titleCase (underscoreToSpace ty) ++ " changed by " ++ formatFixed1 (value * 100) ++ "%"

/-- The `changes` dict of source lines 312-318, in insertion order. -/
def changeDims (prev curr : PageCharacteristics) : List (String × ℚ) :=
  [("confidence", |curr.confidence - prev.confidence|),
   ("symbol_density", |curr.symbol_density - prev.symbol_density|),
   ("line_breaks", |curr.line_breaks - prev.line_breaks|)]

/-- The variation record built for one consecutive page pair (source lines
306-328): keep the dimensions whose absolute difference exceeds the 0.15
threshold, each with its description string. -/
def variationFor (prev curr : PageCharacteristics) : VariationRecord :=
  { from_page := prev.page_number
    to_page := curr.page_number
    changes := ((changeDims prev curr).filter (fun c => decide (c.2 > 0.15))).map
      (fun c => { type := c.1, difference := c.2, description := describeChange c.1 c.2 }) }

/-- Model of `analyze_page_variations` (source lines 298-333): one candidate record
per consecutive pair of page characteristics, kept only when its `changes`
list is nonempty. -/
def analyze_page_variations (page_characteristics : List PageCharacteristics) :
    List VariationRecord :=
  (page_characteristics.zip page_characteristics.tail).filterMap (fun pr =>
    let v := variationFor pr.1 pr.2
    if v.changes = [] then none else some v)

/-- Model of `extract_handwriting_features` (source lines 113-119): it submits one task
per page and collects `future.result()` in `as_completed` order, i.e. in
COMPLETION order.  The scheduler's freedom is modelled by an explicit
`completionOrder` list of page indices (a permutation of
`List.range pageResults.length`); `pageResults` is the page-indexed list of
per-page `process_image` results. -/
def extract_handwriting_features (pageResults : List (List ParagraphFeature))
    (completionOrder : List ℕ) : List (List ParagraphFeature) :=
  completionOrder.map (fun i => pageResults.getD i [])

/-! ## Concrete instances used in witnesses and counterexamples -/

/-- A paragraph feature with every dimension in [0,1]. -/
def pfUnit : ParagraphFeature := ⟨1, 1, 0, 0, 1⟩

/-- A paragraph feature whose `line_breaks` count is far from `pfUnit`'s. -/
def pfManyBreaks : ParagraphFeature := ⟨1, 1, 0, 10, 1⟩

/-- One word made of two non-alphanumeric symbols. -/
def wordPunct : Word := ⟨[⟨"!", 1, false⟩, ⟨"?", 1, false⟩]⟩

/-- A paragraph with one word and two non-alphanumeric symbols. -/
def paraPunct : RawParagraph := ⟨1, [wordPunct]⟩

/-- The feature record the source builds for `paraPunct`: two
non-alphanumeric symbols divided by one word gives `symbol_density = 2`. -/
def pfPunct : ParagraphFeature := ⟨1, 1, 2, 0, 1⟩

/-- A paragraph that has one word but zero symbols. -/
def paraNoSymbols : RawParagraph := ⟨1, [⟨[]⟩]⟩

/-- A paragraph feature that varies only in `confidence`. -/
def confOnly (c : ℚ) : ParagraphFeature := ⟨c, 1, 0, 0, 0⟩

/-- Six paragraphs whose confidences are [0,0,0,0,0,1]: the last one is more
than two standard deviations from the page mean 1/6 (variance 5/36). -/
def outlierPage : List ParagraphFeature :=
  [confOnly 0, confOnly 0, confOnly 0, confOnly 0, confOnly 0, confOnly 1]

/-- The anomaly entry the source produces for the outlier of `outlierPage`. -/
def outlierAnomaly : DimAnomaly := ⟨1, 1 / 6, 5 / 36⟩

/-- The anomaly record the source produces on `outlierPage`. -/
def outlierRecord : AnomalyRecord := ⟨some outlierAnomaly, none, none, 5, 1⟩

/-- Two paragraphs with differing confidence but identical symbol density
and line breaks (so the latter two dimensions have zero variance). -/
def twoParaPage : List ParagraphFeature := [⟨0, 1, 0, 0, 0⟩, ⟨1, 1, 0, 0, 0⟩]

/-- Page summary with mean symbol density 0.10. -/
def pcLowDensity : PageCharacteristics := ⟨1, 0.5, 0.1, 1⟩

/-- Page summary with mean symbol density 0.30. -/
def pcHighDensity : PageCharacteristics := ⟨2, 0.5, 0.3, 1⟩

/-! ## Helper lemmas -/

lemma clip01_nonneg (q : ℚ) : 0 ≤ clip01 q := by
  simp [clip01]

lemma clip01_le_one (q : ℚ) : clip01 q ≤ 1 := by
  simp [clip01]

lemma list_sum_eq_zero_of_nonneg :
    ∀ (l : List ℚ), (∀ x ∈ l, 0 ≤ x) → l.sum = 0 → ∀ x ∈ l, x = 0 := by
  intro l
  induction l with
  | nil => intro _ _ x hx; cases hx
  | cons a t ih =>
    intro hnn hsum x hx
    have hta : 0 ≤ a := hnn a (List.mem_cons_self a t)
    have htn : ∀ y ∈ t, 0 ≤ y := fun y hy => hnn y (List.mem_cons_of_mem a hy)
    have hts : 0 ≤ t.sum := List.sum_nonneg htn
    have hsum2 : a + t.sum = 0 := by simpa using hsum
    have ha : a = 0 := le_antisymm (by linarith) hta
    have ht : t.sum = 0 := by linarith
    rcases List.mem_cons.mp hx with rfl | hxt
    · exact ha
    · exact ih htn ht x hxt

lemma listVar_nonneg (l : List ℚ) : 0 ≤ listVar l := by
  unfold listVar listMean
  apply div_nonneg
  · exact List.sum_nonneg (by
      intro x hx
      rcases List.mem_map.mp hx with ⟨y, _, rfl⟩
      positivity)
  · positivity

lemma eq_mean_of_listVar_eq_zero {l : List ℚ} (h : listVar l = 0) :
    ∀ x ∈ l, x = listMean l := by
  intro x hx
  have hne : l ≠ [] := by rintro rfl; cases hx
  have hlen : (l.length : ℚ) ≠ 0 := by
    exact_mod_cast (List.length_pos.mpr hne).ne'
  have hsum : (l.map (fun y => (y - listMean l) ^ 2)).sum = 0 := by
    have h2 : (l.map (fun y => (y - listMean l) ^ 2)).sum / ((l.length : ℚ)) = 0 := by
      have hdef : listVar l
          = (l.map (fun y => (y - listMean l) ^ 2)).sum
            / (((l.map (fun y => (y - listMean l) ^ 2)).length : ℚ)) := rfl
      rw [hdef, List.length_map] at h
      exact h
    exact (div_eq_zero_iff.mp h2).resolve_right hlen
  have hsq : (x - listMean l) ^ 2 = 0 := by
    refine list_sum_eq_zero_of_nonneg _ ?_ hsum _ (List.mem_map_of_mem _ hx)
    intro y hy
    rcases List.mem_map.mp hy with ⟨z, _, rfl⟩
    positivity
  have := pow_eq_zero_iff (n := 2) (by norm_num) |>.mp hsq
  linarith [sub_eq_zero.mp this]

lemma exceedsThreshold_iff_real (v m var : ℚ) (hvar : 0 ≤ var) :
    exceedsThreshold v m var = true ↔
      2 * Real.sqrt (var : ℝ) < |(v : ℝ) - (m : ℝ)| := by
  have hvarR : (0 : ℝ) ≤ (var : ℝ) := by exact_mod_cast hvar
  have hcast : ((4 * var : ℚ) < (v - m) ^ 2) ↔
      (4 * (var : ℝ) < ((v : ℝ) - (m : ℝ)) ^ 2) := by
    constructor
    · intro h; exact_mod_cast h
    · intro h; exact_mod_cast h
  constructor
  · intro h
    have hq : (4 * var : ℚ) < (v - m) ^ 2 := by
      simpa [exceedsThreshold] using h
    have hr := hcast.mp hq
    have h1 : (2 * Real.sqrt (var : ℝ)) ^ 2 < |(v : ℝ) - (m : ℝ)| ^ 2 := by
      rw [mul_pow, Real.sq_sqrt hvarR, sq_abs]
      linarith
    exact lt_of_pow_lt_pow_left₀ 2 (abs_nonneg _) h1
  · intro h
    have h1 : (2 * Real.sqrt (var : ℝ)) ^ 2 < |(v : ℝ) - (m : ℝ)| ^ 2 :=
      pow_lt_pow_left₀ h (by positivity) (by norm_num)
    rw [mul_pow, Real.sq_sqrt hvarR, sq_abs] at h1
    have hq : (4 * var : ℚ) < (v - m) ^ 2 := hcast.mpr (by linarith)
    simpa [exceedsThreshold] using hq

lemma deviation_gt_two {v m var : ℚ} (hvar : 0 < var)
    (h : exceedsThreshold v m var = true) :
    2 < |(v : ℝ) - (m : ℝ)| / Real.sqrt (var : ℝ) := by
  have hs : 0 < Real.sqrt (var : ℝ) := Real.sqrt_pos.mpr (by exact_mod_cast hvar)
  have h2 := (exceedsThreshold_iff_real v m var hvar.le).mp h
  rw [lt_div_iff₀ hs]
  linarith

lemma listVar_pos_of_exceeds {l : List ℚ} {v : ℚ} (hv : v ∈ l)
    (h : exceedsThreshold v (listMean l) (listVar l) = true) : 0 < listVar l := by
  rcases (listVar_nonneg l).lt_or_eq with hpos | hzero
  · exact hpos
  · exfalso
    have hvm := eq_mean_of_listVar_eq_zero hzero.symm v hv
    rw [exceedsThreshold, hvm, ← hzero] at h
    simp at h

lemma snd_mem_of_mem_enum {α : Type} {l : List α} {p : ℕ × α} (h : p ∈ l.enum) :
    p.2 ∈ l := by
  have hm := List.mem_map_of_mem Prod.snd h
  rwa [List.enum_map_snd] at hm

lemma flatten_ne_nil_of_headI {α : Type} {f : List (List α)}
    (h0 : f ≠ []) (h1 : f.headI ≠ []) : f.flatten ≠ [] := by
  cases f with
  | nil => exact absurd rfl h0
  | cons a t =>
    simp only [List.headI] at h1
    simp only [List.flatten_cons]
    intro hc
    exact h1 (List.append_eq_nil.mp hc).1

lemma compare_eq_of_nondegenerate {f1 f2 : List (List ParagraphFeature)}
    (h : ¬(f1 = [] ∨ f2 = [] ∨ f1.headI = [] ∨ f2.headI = [])) :
    compare_handwriting_features f1 f2 =
      (clip01 (weightedSim f1.flatten f2.flatten),
       featureScores f1.flatten f2.flatten) := by
  push_neg at h
  obtain ⟨h1, h2, h3, h4⟩ := h
  unfold compare_handwriting_features
  rw [if_neg (by tauto), if_neg]
  rintro (hc | hc)
  · exact flatten_ne_nil_of_headI h1 h3 hc
  · exact flatten_ne_nil_of_headI h2 h4 hc

lemma mkDimAnomaly_eq_none_of_var_zero {l : List ℚ} {v : ℚ} (hv : v ∈ l)
    (h : listVar l = 0) : mkDimAnomaly v (listMean l) (listVar l) = none := by
  have hvm := eq_mean_of_listVar_eq_zero h v hv
  have hfalse : exceedsThreshold v (listMean l) (listVar l) = false := by
    rw [exceedsThreshold, hvm, h]
    simp
  simp [mkDimAnomaly, hfalse]

lemma detect_page_anomalies_mem {features : List ParagraphFeature} {page_num : ℕ}
    {r : AnomalyRecord} (hr : r ∈ detect_page_anomalies features page_num) :
    ∃ p : ℕ × ParagraphFeature, p ∈ features.enum ∧
      r = { confidence := mkDimAnomaly p.2.confidence
              (listMean (features.map fun f => f.confidence))
              (listVar (features.map fun f => f.confidence))
            symbol_density := mkDimAnomaly p.2.symbol_density
              (listMean (features.map fun f => f.symbol_density))
              (listVar (features.map fun f => f.symbol_density))
            line_breaks := mkDimAnomaly p.2.line_breaks
              (listMean (features.map fun f => f.line_breaks))
              (listVar (features.map fun f => f.line_breaks))
            paragraph_index := p.1
            page_number := page_num + 1 } := by
  simp only [detect_page_anomalies, List.mem_filterMap] at hr
  obtain ⟨p, hp, hbody⟩ := hr
  refine ⟨p, hp, ?_⟩
  split at hbody
  · cases hbody
  · cases hbody
    rfl

/-! ## Claim theorems -/

/-- Claim C5: whenever either document has zero pages, or either document's
first page is empty, or either document's flattened paragraph list is empty,
`compare_handwriting_features` returns composite similarity 0 together with
an empty sub-score mapping. -/
theorem compare_degenerate_returns_zero :
    ∀ f1 f2 : List (List ParagraphFeature),
      f1 = [] ∨ f2 = [] ∨ f1.headI = [] ∨ f2.headI = [] ∨
        f1.flatten = [] ∨ f2.flatten = [] →
      compare_handwriting_features f1 f2 = (0, []) := by
  intro f1 f2 h
  unfold compare_handwriting_features
  by_cases hg : f1 = [] ∨ f2 = [] ∨ f1.headI = [] ∨ f2.headI = []
  · rw [if_pos hg]
  · rw [if_neg hg, if_pos (by tauto)]

/-- Witness for C5: a document whose first page is empty yields (0, []). -/
theorem compare_degenerate_returns_zero_witness :
    compare_handwriting_features [[]] [[pfUnit]] = (0, []) :=
  compare_degenerate_returns_zero [[]] [[pfUnit]] (by decide)

/-- Claim C6: the composite score and every per-dimension sub-score returned
by `compare_handwriting_features` lie in the closed interval [0, 1]. -/
theorem compare_scores_within_unit_interval :
    ∀ f1 f2 : List (List ParagraphFeature),
      (0 ≤ (compare_handwriting_features f1 f2).1 ∧
        (compare_handwriting_features f1 f2).1 ≤ 1) ∧
      ∀ s ∈ (compare_handwriting_features f1 f2).2, 0 ≤ s.2 ∧ s.2 ≤ 1 := by
  intro f1 f2
  unfold compare_handwriting_features
  split
  · refine ⟨by norm_num, ?_⟩
    intro s hs
    simp at hs
  · split
    · refine ⟨by norm_num, ?_⟩
      intro s hs
      simp at hs
    · refine ⟨⟨clip01_nonneg _, clip01_le_one _⟩, ?_⟩
      intro s hs
      simp only [featureScores, List.mem_cons, List.not_mem_nil, or_false] at hs
      rcases hs with rfl | rfl | rfl | rfl
      all_goals exact ⟨clip01_nonneg _, clip01_le_one _⟩

/-- Witness for C6 at a concrete non-degenerate document pair. -/
theorem compare_scores_within_unit_interval_witness :
    (0 ≤ (compare_handwriting_features [[pfUnit]] [[pfManyBreaks]]).1 ∧
      (compare_handwriting_features [[pfUnit]] [[pfManyBreaks]]).1 ≤ 1) ∧
    ∀ s ∈ (compare_handwriting_features [[pfUnit]] [[pfManyBreaks]]).2,
      0 ≤ s.2 ∧ s.2 ≤ 1 :=
  compare_scores_within_unit_interval [[pfUnit]] [[pfManyBreaks]]

/-- Claim C7: `compare_handwriting_features` is exactly symmetric in its two
documents, for the composite score and the whole sub-score mapping. -/
theorem compare_symmetric :
    ∀ f1 f2 : List (List ParagraphFeature),
      compare_handwriting_features f1 f2 = compare_handwriting_features f2 f1 := by
  intro f1 f2
  unfold compare_handwriting_features
  by_cases h : f1 = [] ∨ f2 = [] ∨ f1.headI = [] ∨ f2.headI = []
  · rw [if_pos h,
      if_pos (show f2 = [] ∨ f1 = [] ∨ f2.headI = [] ∨ f1.headI = [] by tauto)]
  · rw [if_neg h,
      if_neg (show ¬(f2 = [] ∨ f1 = [] ∨ f2.headI = [] ∨ f1.headI = []) by tauto)]
    by_cases h2 : f1.flatten = [] ∨ f2.flatten = []
    · rw [if_pos h2,
        if_pos (show f2.flatten = [] ∨ f1.flatten = [] by tauto)]
    · rw [if_neg h2,
        if_neg (show ¬(f2.flatten = [] ∨ f1.flatten = []) by tauto)]
      have hd : ∀ field : ParagraphFeature → ℚ,
          dimSim f1.flatten f2.flatten field = dimSim f2.flatten f1.flatten field := by
        intro field
        simp [dimSim, abs_sub_comm]
      simp [weightedSim, featureScores, hd]

/-- Claim C1, amended: outside the degenerate case the composite score is
the clamp to [0,1] of the weighted sum (0.3/0.3/0.2/0.2) of the four
UNCLAMPED per-dimension similarities `1 - |mean1 - mean2|` (the clamped
values appear only in the sub-score mapping). -/
theorem composite_is_clip_of_unclamped_weighted_sum :
    ∀ f1 f2 : List (List ParagraphFeature),
      ¬(f1 = [] ∨ f2 = [] ∨ f1.headI = [] ∨ f2.headI = []) →
      (compare_handwriting_features f1 f2).1 =
        clip01 (0.3 * (1 - |listMean (f1.flatten.map fun f => f.confidence)
              - listMean (f2.flatten.map fun f => f.confidence)|)
          + 0.3 * (1 - |listMean (f1.flatten.map fun f => f.symbol_density)
              - listMean (f2.flatten.map fun f => f.symbol_density)|)
          + 0.2 * (1 - |listMean (f1.flatten.map fun f => f.line_breaks)
              - listMean (f2.flatten.map fun f => f.line_breaks)|)
          + 0.2 * (1 - |listMean (f1.flatten.map fun f => f.average_symbol_confidence)
              - listMean (f2.flatten.map fun f => f.average_symbol_confidence)|)) := by
  intro f1 f2 h
  rw [compare_eq_of_nondegenerate h]
  simp [weightedSim, dimSim]

/-- Witness for the amended C1 at a concrete non-degenerate pair. -/
theorem composite_is_clip_of_unclamped_weighted_sum_witness :
    (compare_handwriting_features [[pfUnit]] [[pfManyBreaks]]).1 =
      clip01 (0.3 * (1 - |listMean ([[pfUnit]].flatten.map fun f => f.confidence)
            - listMean ([[pfManyBreaks]].flatten.map fun f => f.confidence)|)
        + 0.3 * (1 - |listMean ([[pfUnit]].flatten.map fun f => f.symbol_density)
            - listMean ([[pfManyBreaks]].flatten.map fun f => f.symbol_density)|)
        + 0.2 * (1 - |listMean ([[pfUnit]].flatten.map fun f => f.line_breaks)
            - listMean ([[pfManyBreaks]].flatten.map fun f => f.line_breaks)|)
        + 0.2 * (1 - |listMean ([[pfUnit]].flatten.map fun f => f.average_symbol_confidence)
            - listMean ([[pfManyBreaks]].flatten.map fun f => f.average_symbol_confidence)|)) :=
  composite_is_clip_of_unclamped_weighted_sum [[pfUnit]] [[pfManyBreaks]] (by decide)

unseal Rat.mul Rat.add Rat.sub Rat.inv Rat.ofScientific in
/-- Counterexample to C1 as stated: at the non-degenerate pair
([[pfUnit]], [[pfManyBreaks]]) the source's composite is 0 while the
claimed clamp-each-dimension-first formula gives 0.8. -/
theorem composite_clamped_claim_counterexample :
    ¬([[pfUnit]] = ([] : List (List ParagraphFeature)) ∨
        [[pfManyBreaks]] = ([] : List (List ParagraphFeature)) ∨
        ([[pfUnit]] : List (List ParagraphFeature)).headI = [] ∨
        ([[pfManyBreaks]] : List (List ParagraphFeature)).headI = []) ∧
    (compare_handwriting_features [[pfUnit]] [[pfManyBreaks]]).1 = 0 ∧
    claimedComposite [[pfUnit]] [[pfManyBreaks]] = 0.8 ∧
    (compare_handwriting_features [[pfUnit]] [[pfManyBreaks]]).1 ≠
      claimedComposite [[pfUnit]] [[pfManyBreaks]] := by
  refine ⟨by decide, by decide, by decide, by decide⟩

/-- Claim C2, amended: for every feature record the source produces, the
`symbol_density` field equals the number of non-alphanumeric symbols divided
by the number of WORDS in the paragraph (not by the total symbol count). -/
theorem symbol_density_divides_by_word_count :
    ∀ (p : RawParagraph) (pf : ParagraphFeature),
      mkParagraphFeature p = some pf →
      pf.symbol_density = (nonAlnumSymbols p.words : ℚ) / (p.words.length : ℚ) := by
  intro p pf h
  unfold mkParagraphFeature at h
  split at h
  · cases h
  · cases h
    rfl

unseal Rat.mul Rat.add Rat.sub Rat.inv in
/-- Witness for the amended C2 at a concrete paragraph. -/
theorem symbol_density_divides_by_word_count_witness :
    mkParagraphFeature paraPunct = some pfPunct ∧
    pfPunct.symbol_density =
      (nonAlnumSymbols paraPunct.words : ℚ) / (paraPunct.words.length : ℚ) :=
  ⟨by decide,
   symbol_density_divides_by_word_count paraPunct pfPunct (by decide)⟩

unseal Rat.mul Rat.add Rat.sub Rat.inv in
/-- Counterexample to C2 as stated: `paraPunct` has one word with two
non-alphanumeric symbols; the source computes `symbol_density = 2` (dividing
by the word count) while the claimed fraction of symbols is 1. -/
theorem symbol_density_fraction_counterexample :
    (mkParagraphFeature paraPunct).map (fun f => f.symbol_density) = some 2 ∧
    claimedSymbolDensity paraPunct.words = 1 ∧
    (mkParagraphFeature paraPunct).map (fun f => f.symbol_density) ≠
      some (claimedSymbolDensity paraPunct.words) := by
  refine ⟨by decide, by decide, by decide⟩

unseal Rat.mul Rat.add Rat.sub Rat.inv in
/-- Claim C3 (code bug): for a paragraph that has a word but zero symbols,
computing `average_symbol_confidence` divides by the symbol count 0 — the
`ZeroDivisionError` (modelled as `none`) is caught by the page-level handler
and the whole page degrades to `[]`, instead of the value being treated as
absent/zero. -/
theorem average_symbol_confidence_division_by_zero :
    paraNoSymbols.words ≠ [] ∧
    totalSymbols paraNoSymbols.words = 0 ∧
    mkParagraphFeature paraNoSymbols = none ∧
    process_image [paraNoSymbols] = [] := by
  refine ⟨by decide, by decide, by decide, by decide⟩

/-- Claim C4: for each of the three dimensions, when its population variance
over the page's paragraphs is zero (so its standard deviation is zero), no
anomaly record on that page cites the dimension; in particular a
single-paragraph page yields no anomaly record at all.  The embedding is a
total function, so no division error can occur. -/
theorem zero_variance_dimension_never_cited :
    ∀ (features : List ParagraphFeature) (page_num : ℕ),
      (listVar (features.map fun f => f.confidence) = 0 →
        ∀ r ∈ detect_page_anomalies features page_num, r.confidence = none) ∧
      (listVar (features.map fun f => f.symbol_density) = 0 →
        ∀ r ∈ detect_page_anomalies features page_num, r.symbol_density = none) ∧
      (listVar (features.map fun f => f.line_breaks) = 0 →
        ∀ r ∈ detect_page_anomalies features page_num, r.line_breaks = none) ∧
      (∀ f : ParagraphFeature, detect_page_anomalies [f] page_num = []) := by
  intro features page_num
  refine ⟨?_, ?_, ?_, ?_⟩
  · intro hvar r hr
    obtain ⟨p, hp, rfl⟩ := detect_page_anomalies_mem hr
    exact mkDimAnomaly_eq_none_of_var_zero
      (List.mem_map_of_mem _ (snd_mem_of_mem_enum hp)) hvar
  · intro hvar r hr
    obtain ⟨p, hp, rfl⟩ := detect_page_anomalies_mem hr
    exact mkDimAnomaly_eq_none_of_var_zero
      (List.mem_map_of_mem _ (snd_mem_of_mem_enum hp)) hvar
  · intro hvar r hr
    obtain ⟨p, hp, rfl⟩ := detect_page_anomalies_mem hr
    exact mkDimAnomaly_eq_none_of_var_zero
      (List.mem_map_of_mem _ (snd_mem_of_mem_enum hp)) hvar
  · intro f
    have hone : ∀ a : ℚ, listMean [a] = a := by
      intro a
      simp [listMean]
    have hzero : ∀ a : ℚ, listVar [a] = 0 := by
      intro a
      simp [listVar, listMean]
    simp [detect_page_anomalies, mkDimAnomaly, exceedsThreshold, hone, hzero]

unseal Rat.mul Rat.add Rat.sub Rat.inv in
/-- Witness for C4: on a two-paragraph page whose symbol densities are
identical (zero variance), no record cites `symbol_density`. -/
theorem zero_variance_dimension_never_cited_witness :
    listVar (twoParaPage.map fun f => f.symbol_density) = 0 ∧
    ∀ r ∈ detect_page_anomalies twoParaPage 0, r.symbol_density = none :=
  ⟨by decide,
   (zero_variance_dimension_never_cited twoParaPage 0).2.1 (by decide)⟩

/-- Claim C10: every dimension entry inside an anomaly record the detector
produces has deviation `|value - mean| / std` strictly greater than 2, where
`std` is the real square root of the recorded population variance. -/
theorem anomaly_deviation_exceeds_two :
    ∀ (features : List ParagraphFeature) (page_num : ℕ),
      ∀ r ∈ detect_page_anomalies features page_num,
        (∀ d, r.confidence = some d →
          2 < |(d.value : ℝ) - (d.mean : ℝ)| / Real.sqrt (d.var : ℝ)) ∧
        (∀ d, r.symbol_density = some d →
          2 < |(d.value : ℝ) - (d.mean : ℝ)| / Real.sqrt (d.var : ℝ)) ∧
        (∀ d, r.line_breaks = some d →
          2 < |(d.value : ℝ) - (d.mean : ℝ)| / Real.sqrt (d.var : ℝ)) := by
  intro features page_num r hr
  obtain ⟨p, hp, rfl⟩ := detect_page_anomalies_mem hr
  have key : ∀ (v : ℚ) (l : List ℚ), v ∈ l →
      ∀ d, mkDimAnomaly v (listMean l) (listVar l) = some d →
        2 < |(d.value : ℝ) - (d.mean : ℝ)| / Real.sqrt (d.var : ℝ) := by
    intro v l hv d hd
    rw [mkDimAnomaly] at hd
    split at hd
    · rename_i hex
      cases hd
      exact deviation_gt_two (listVar_pos_of_exceeds hv hex) hex
    · cases hd
  refine ⟨?_, ?_, ?_⟩
  · intro d hd
    exact key p.2.confidence _
      (List.mem_map_of_mem _ (snd_mem_of_mem_enum hp)) d hd
  · intro d hd
    exact key p.2.symbol_density _
      (List.mem_map_of_mem _ (snd_mem_of_mem_enum hp)) d hd
  · intro d hd
    exact key p.2.line_breaks _
      (List.mem_map_of_mem _ (snd_mem_of_mem_enum hp)) d hd

unseal Rat.mul Rat.add Rat.sub Rat.inv in
/-- Witness for C10: on `outlierPage` the detector flags the sixth paragraph
at dimension `confidence`, and its deviation exceeds 2. -/
theorem anomaly_deviation_exceeds_two_witness :
    outlierRecord ∈ detect_page_anomalies outlierPage 0 ∧
    2 < |((1 : ℚ) : ℝ) - ((1 / 6 : ℚ) : ℝ)| / Real.sqrt ((5 / 36 : ℚ) : ℝ) :=
  ⟨by decide,
   (anomaly_deviation_exceeds_two outlierPage 0 outlierRecord (by decide)).1
     outlierAnomaly (by decide)⟩

unseal Rat.mul Rat.add Rat.sub Rat.inv Rat.ofScientific in
/-- Claim C9: the analyzer emits a change entry for a dimension exactly when
that dimension's absolute page-mean difference exceeds 0.15; every emitted
entry carries its dimension's absolute difference and the description
produced by the source's format string; a variation record is emitted only
when at least one dimension exceeded the threshold; and the spec's example
(symbol density 0.10 to 0.30) yields exactly the description
"Symbol Density changed by 20.0%". -/
theorem variation_threshold_characterization :
    (∀ pcs : List PageCharacteristics, ∀ r ∈ analyze_page_variations pcs,
        r.changes ≠ [] ∧ ∃ pr ∈ pcs.zip pcs.tail, r = variationFor pr.1 pr.2) ∧
    (∀ pcs : List PageCharacteristics, ∀ pr ∈ pcs.zip pcs.tail,
        (variationFor pr.1 pr.2).changes ≠ [] →
        variationFor pr.1 pr.2 ∈ analyze_page_variations pcs) ∧
    (∀ p c : PageCharacteristics,
        ((∃ e ∈ (variationFor p c).changes, e.type = "confidence") ↔
          |c.confidence - p.confidence| > 0.15) ∧
        ((∃ e ∈ (variationFor p c).changes, e.type = "symbol_density") ↔
          |c.symbol_density - p.symbol_density| > 0.15) ∧
        ((∃ e ∈ (variationFor p c).changes, e.type = "line_breaks") ↔
          |c.line_breaks - p.line_breaks| > 0.15) ∧
        (∀ e ∈ (variationFor p c).changes,
          0.15 < e.difference ∧ (e.type, e.difference) ∈ changeDims p c ∧
          e.description = describeChange e.type e.difference)) ∧
    analyze_page_variations [pcLowDensity, pcHighDensity] =
      [{ from_page := 1, to_page := 2,
         changes := [{ type := "symbol_density", difference := 0.2,
                       description := "Symbol Density changed by 20.0%" }] }] := by
  refine ⟨?_, ?_, ?_, by decide⟩
  · intro pcs r hr
    simp only [analyze_page_variations, List.mem_filterMap] at hr
    obtain ⟨pr, hpr, hbody⟩ := hr
    split at hbody
    · cases hbody
    · rename_i hne
      cases hbody
      exact ⟨hne, pr, hpr, rfl⟩
  · intro pcs pr hpr hne
    simp only [analyze_page_variations, List.mem_filterMap]
    exact ⟨pr, hpr, by rw [if_neg hne]⟩
  · intro p c
    by_cases h1 : |c.confidence - p.confidence| > 0.15 <;>
      by_cases h2 : |c.symbol_density - p.symbol_density| > 0.15 <;>
        by_cases h3 : |c.line_breaks - p.line_breaks| > 0.15 <;>
          simp [variationFor, changeDims, h1, h2, h3, describeChange]

unseal Rat.mul Rat.add Rat.sub Rat.inv Rat.ofScientific in
/-- Witness for C9: the spec's example pair produces its variation record. -/
theorem variation_threshold_characterization_witness :
    variationFor pcLowDensity pcHighDensity ∈
      analyze_page_variations [pcLowDensity, pcHighDensity] :=
  variation_threshold_characterization.2.1 [pcLowDensity, pcHighDensity]
    (pcLowDensity, pcHighDensity) (by decide) (by decide)

/-- Claim C8 (code bug): the extractor collects page results in completion
order, not page order.  With two pages and completion order [1, 0] (page 1
finishing first) the output is the reversal of the page-ordered result, so
the ordering guarantee fails. -/
theorem extraction_uses_completion_order :
    List.Perm [1, 0] (List.range 2) ∧
    extract_handwriting_features [[pfUnit], []] [1, 0] = [[], [pfUnit]] ∧
    extract_handwriting_features [[pfUnit], []] [1, 0] ≠ [[pfUnit], []] := by
  refine ⟨by decide, by decide, by decide⟩

end HandwritingSimilarity
